import Mathlib

/-!
Verification of the EMG UDP listener (`src/emg_receiver/listener.py`).

The embedding models the ingestion pipeline of the listener:

* JSON values (`JVal`) stand for the Python values produced by `json.loads`;
  numbers are modelled as exact rationals (`ℚ`), so the IEEE-754 specials
  `NaN`/`Infinity` (unrepresentable in `ℚ`) are outside the model: the JSON
  parser and the string-to-float model below accept only finite decimal
  literals.
* `clamp01`, `to_float`, `to_bool`, `parse_packet` follow the Python
  functions of the same names line by line; `parse_packet` is split into the
  byte/JSON front end and `parse_fields` for the field extraction.
* `atomic_write_json` is modelled as the list of file-system operations the
  Python function performs, interpreted over an explicit file-system state.
* the ingestion loop of `main` is modelled as a step function over an
  explicit `LoopState`, driven by a list of receive events; storage failures
  (`IOError` in Python) are injected through an `IOOutcome` parameter.
-/

namespace EmgReceiver

/-- A JSON value as produced by Python's `json.loads`: `null`, booleans,
numbers (modelled as exact rationals), strings, arrays, objects (key/value
lists in document order, duplicates kept; lookup takes the last match, as a
Python dict built by the parser would). -/
inductive JVal where
  | null
  | bool (b : Bool)
  | num (q : ℚ)
  | str (s : String)
  | arr (elems : List JVal)
  | obj (members : List (String × JVal))
deriving Repr

/-- The decoded sample record built by `parse_packet`:
`{"ts": ..., "aTA": ..., "aGAS": ..., "valid": ...}`. -/
structure Sample where
  ts : ℚ
  aTA : ℚ
  aGAS : ℚ
  valid : Bool
deriving DecidableEq, Repr

/-- Classification of the exceptions `parse_packet` can raise: invalid UTF-8
(`UnicodeDecodeError`), invalid JSON (`json.JSONDecodeError`), a top-level
value that is not an object (`TypeError` on `msg[...]`), a missing required
field (`KeyError`), or a field value that cannot be coerced (`ValueError`
from `to_float` / `to_bool`). -/
inductive DecodeError where
  | badEncoding
  | badSyntax
  | notObject
  | missingField (name : String)
  | badType (name : String)
deriving DecidableEq, Repr

/-- Decidable equality for `Except`, so that packet decoding results can be
compared by `decide`. -/
instance {ε α : Type} [DecidableEq ε] [DecidableEq α] : DecidableEq (Except ε α) := by
  intro a b
  cases a <;> cases b
  case error.error e1 e2 =>
    exact match decEq e1 e2 with
    | isTrue h => isTrue (by rw [h])
    | isFalse h => isFalse (by intro hx; cases hx; exact h rfl)
  case ok.ok a1 a2 =>
    exact match decEq a1 a2 with
    | isTrue h => isTrue (by rw [h])
    | isFalse h => isFalse (by intro hx; cases hx; exact h rfl)
  case error.ok e1 a2 => exact isFalse (by intro hx; cases hx)
  case ok.error a1 e2 => exact isFalse (by intro hx; cases hx)

/-! ### Python string helpers

Python's `str.strip()` / `str.lower()`, modelled over the ASCII range (the
packets of interest are ASCII; Unicode-specific stripping/casefolding is not
modelled). -/

/-- Characters removed by Python's `str.strip()` (ASCII whitespace). -/
def isPyWs (c : Char) : Bool :=
  c = ' ' || c = '\t' || c = '\n' || c = '\r' || c = '\x0b' || c = '\x0c'

/-- Python `str.strip()`: drop leading and trailing whitespace. -/
def pyStrip (cs : List Char) : List Char :=
  ((cs.dropWhile isPyWs).reverse.dropWhile isPyWs).reverse

/-- Python `str.lower()` on the ASCII range. -/
def pyLower (cs : List Char) : List Char :=
  cs.map fun c => if 'A' ≤ c ∧ c ≤ 'Z' then Char.ofNat (c.toNat + 32) else c

/-- Python `str.strip().lower()` packaged over `String`. -/
def pyNorm (s : String) : String :=
  String.mk (pyLower (pyStrip s.data))

/-! ### Model of Python's `float(str)` on finite decimal literals

`float(s)` accepts an optional sign, then digits with an optional fractional
part (or a bare fractional part), and an optional decimal exponent, with
surrounding whitespace ignored; the mantissa must contain at least one digit
and the whole string must be consumed. (`inf`/`nan` literals, underscore
digit separators and non-ASCII digits are Python extensions outside this
exact-rational model.) -/

/-- Decimal digit test. -/
def isDigitCh (c : Char) : Bool := '0' ≤ c && c ≤ '9'

/-- Longest digit run at the head of the input, and the rest. -/
def takeDigits : List Char → List Char × List Char
  | [] => ([], [])
  | c :: cs =>
    if isDigitCh c then
      let (ds, r) := takeDigits cs
      (c :: ds, r)
    else ([], c :: cs)

/-- Numeric value of a digit run. -/
def digitsVal (ds : List Char) : Nat :=
  ds.foldl (fun a c => a * 10 + (c.toNat - 48)) 0

/-- Exact rational value of a signed decimal mantissa times `10^exp10`. -/
def decValue (neg : Bool) (mant : Nat) (exp10 : Int) : ℚ :=
  let m : Int := if neg then -(mant : Int) else (mant : Int)
  if 0 ≤ exp10 then mkRat (m * ((10 ^ exp10.toNat : Nat) : Int)) 1
  else mkRat m (10 ^ (-exp10).toNat)

/-- Exponent suffix of a float literal: empty means exponent `0`; otherwise
an `e`/`E`, an optional sign, and at least one digit, consuming everything. -/
def parseExpSuffix : List Char → Option Int
  | [] => some 0
  | c :: cs =>
    if c = 'e' ∨ c = 'E' then
      match cs with
      | '+' :: ds => match takeDigits ds with
        | (es, []) => if es = [] then none else some (digitsVal es : Int)
        | _ => none
      | '-' :: ds => match takeDigits ds with
        | (es, []) => if es = [] then none else some (-(digitsVal es : Int))
        | _ => none
      | ds => match takeDigits ds with
        | (es, []) => if es = [] then none else some (digitsVal es : Int)
        | _ => none
    else none

/-- Mantissa-and-exponent part of a float literal (after the sign):
`digits [. digits] [exp]` or `. digits [exp]`. -/
def parseFloatBody (neg : Bool) (cs : List Char) : Option ℚ :=
  let (ip, r1) := takeDigits cs
  match r1 with
  | '.' :: r2 =>
    let (fp, r3) := takeDigits r2
    if ip = [] ∧ fp = [] then none
    else
      match parseExpSuffix r3 with
      | some e => some (decValue neg (digitsVal (ip ++ fp)) (e - (fp.length : Int)))
      | none => none
  | _ =>
    if ip = [] then none
    else
      match parseExpSuffix r1 with
      | some e => some (decValue neg (digitsVal ip) e)
      | none => none

/-- Python `float(s)` on a finite decimal literal (exact-rational model). -/
def pyFloatOfString (cs : List Char) : Option ℚ :=
  let cs := (pyStrip cs)
  match cs with
  | '+' :: rest => parseFloatBody false rest
  | '-' :: rest => parseFloatBody true rest
  | rest => parseFloatBody false rest

/-! ### The coercion helpers of the listener -/

/-- Python `clamp01`: clamp a value to the `[0, 1]` range
(`max(0.0, min(1.0, x))`). -/
def clamp01 (x : ℚ) : ℚ := max 0 (min 1 x)

/-- Python `to_float`: numbers pass through; booleans pass the
`isinstance(v, (int, float))` test (Python `bool` is an `int` subclass) and
become `1.0` / `0.0`; strings are stripped and parsed as a float; everything
else raises `ValueError` (modelled as `none`). -/
def to_float : JVal → Option ℚ
  | .bool b => some (if b then mkRat 1 1 else mkRat 0 1)
  | .num q => some q
  | .str s => pyFloatOfString s.data
  | _ => none

/-- The literal truthy set of `to_bool`. -/
def truthyStrings : List String := ["1", "true", "yes", "y"]

/-- Python `to_bool`: booleans pass through; numbers by nonzero check;
strings are stripped, lowercased and tested against the truthy set;
everything else raises `ValueError` (modelled as `none`). -/
def to_bool : JVal → Option Bool
  | .bool b => some b
  | .num q => some (!(q == 0))
  | .str s => some (truthyStrings.contains (pyNorm s))
  | _ => none

/-! ### UTF-8

Strict UTF-8, as in Python's `bytes.decode("utf-8")`: continuation bytes
checked, overlong encodings, surrogates and code points above `0x10FFFF`
rejected. -/

/-- Value of a UTF-8 continuation byte, or `none` if the byte is not one. -/
def contVal (b : Nat) : Option Nat :=
  if 0x80 ≤ b ∧ b < 0xC0 then some (b - 0x80) else none

/-- Strict UTF-8 decoding of a byte list (Python `raw.decode("utf-8")`). -/
def utf8Decode : List Nat → Option (List Char)
  | [] => some []
  | b :: bs =>
    if b < 0x80 then (utf8Decode bs).map (fun cs => Char.ofNat b :: cs)
    else if b < 0xC2 then none
    else if b < 0xE0 then
      match bs with
      | b1 :: bs1 =>
        match contVal b1 with
        | some v1 => (utf8Decode bs1).map (fun cs => Char.ofNat ((b - 0xC0) * 0x40 + v1) :: cs)
        | none => none
      | [] => none
    else if b < 0xF0 then
      match bs with
      | b1 :: b2 :: bs2 =>
        match contVal b1, contVal b2 with
        | some v1, some v2 =>
          let cp := (b - 0xE0) * 0x1000 + v1 * 0x40 + v2
          if 0x800 ≤ cp ∧ ¬ (0xD800 ≤ cp ∧ cp ≤ 0xDFFF) then
            (utf8Decode bs2).map (fun cs => Char.ofNat cp :: cs)
          else none
        | _, _ => none
      | _ => none
    else if b < 0xF5 then
      match bs with
      | b1 :: b2 :: b3 :: bs3 =>
        match contVal b1, contVal b2, contVal b3 with
        | some v1, some v2, some v3 =>
          let cp := (b - 0xF0) * 0x40000 + v1 * 0x1000 + v2 * 0x40 + v3
          if 0x10000 ≤ cp ∧ cp ≤ 0x10FFFF then
            (utf8Decode bs3).map (fun cs => Char.ofNat cp :: cs)
          else none
        | _, _, _ => none
      | _ => none
    else none

/-- UTF-8 encoding of one character. -/
def utf8EncodeChar (c : Char) : List Nat :=
  let n := c.toNat
  if n < 0x80 then [n]
  else if n < 0x800 then [0xC0 + n / 0x40, 0x80 + n % 0x40]
  else if n < 0x10000 then
    [0xE0 + n / 0x1000, 0x80 + n / 0x40 % 0x40, 0x80 + n % 0x40]
  else
    [0xF0 + n / 0x40000, 0x80 + n / 0x1000 % 0x40, 0x80 + n / 0x40 % 0x40, 0x80 + n % 0x40]

/-- UTF-8 encoding of a character list (Python `s.encode("utf-8")`). -/
def utf8Encode (cs : List Char) : List Nat :=
  cs.foldr (fun c acc => utf8EncodeChar c ++ acc) []

/-- Byte list of an ASCII/Unicode Lean string, for building packets. -/
def strBytes (s : String) : List Nat := utf8Encode s.data

/-! ### JSON parser (model of Python's `json.loads`)

Strict RFC 8259 grammar over a character list: the four JSON whitespace
characters, `null`/`true`/`false`, numbers (no leading zeros, optional
fraction and exponent), strings with escapes (`\uXXXX` including surrogate
pairs; lone surrogates are unrepresentable in Lean `Char` and rejected),
arrays and objects. The nonstandard `NaN`/`Infinity` literals Python also
accepts are unrepresentable in `ℚ` and outside the model. -/

/-- JSON whitespace (only space, tab, newline, carriage return). -/
def isJsonWs (c : Char) : Bool :=
  c = ' ' || c = '\t' || c = '\n' || c = '\r'

/-- Skip JSON whitespace. -/
def skipWs : List Char → List Char
  | [] => []
  | c :: cs => if isJsonWs c then skipWs cs else c :: cs

/-- Value of a hexadecimal digit. -/
def hexVal (c : Char) : Option Nat :=
  if '0' ≤ c ∧ c ≤ '9' then some (c.toNat - 48)
  else if 'a' ≤ c ∧ c ≤ 'f' then some (c.toNat - 87)
  else if 'A' ≤ c ∧ c ≤ 'F' then some (c.toNat - 55)
  else none

/-- Four hex digits after `\u`, as a code unit. -/
def readHex4 : List Char → Option (Nat × List Char)
  | a :: b :: c :: d :: rest =>
    match hexVal a, hexVal b, hexVal c, hexVal d with
    | some x, some y, some z, some w => some (x * 0x1000 + y * 0x100 + z * 0x10 + w, rest)
    | _, _, _, _ => none
  | _ => none

/-- Body of a JSON string (after the opening quote), with escapes; returns
the decoded characters and the rest of the input. Runs on fuel for
structural totality; one character is consumed per step, so any fuel above
the input length is enough. -/
def parseJStrBody : Nat → List Char → Option (List Char × List Char)
  | 0, _ => none
  | fuel + 1, cs =>
    match cs with
    | [] => none
    | '"' :: rest => some ([], rest)
    | '\\' :: e :: rest =>
      let simple : Char → Option Char := fun c =>
        if c = '"' then some '"'
        else if c = '\\' then some '\\'
        else if c = '/' then some '/'
        else if c = 'b' then some '\x08'
        else if c = 'f' then some '\x0c'
        else if c = 'n' then some '\n'
        else if c = 'r' then some '\r'
        else if c = 't' then some '\t'
        else none
      match simple e with
      | some c => (parseJStrBody fuel rest).map (fun p => (c :: p.1, p.2))
      | none =>
        if e = 'u' then
          match readHex4 rest with
          | some (u, r1) =>
            if 0xD800 ≤ u ∧ u ≤ 0xDBFF then
              match r1 with
              | '\\' :: 'u' :: r2 =>
                match readHex4 r2 with
                | some (l, r3) =>
                  if 0xDC00 ≤ l ∧ l ≤ 0xDFFF then
                    let cp := 0x10000 + (u - 0xD800) * 0x400 + (l - 0xDC00)
                    (parseJStrBody fuel r3).map (fun p => (Char.ofNat cp :: p.1, p.2))
                  else none
                | none => none
              | _ => none
            else if 0xDC00 ≤ u ∧ u ≤ 0xDFFF then none
            else (parseJStrBody fuel r1).map (fun p => (Char.ofNat u :: p.1, p.2))
          | none => none
        else none
    | c :: rest =>
      if c.toNat < 0x20 then none
      else (parseJStrBody fuel rest).map (fun p => (c :: p.1, p.2))

/-- A JSON number: `-? (0 | [1-9][0-9]*) (. [0-9]+)? ([eE][+-]?[0-9]+)?`;
returns the exact rational value and the rest of the input. -/
def parseJNum (cs : List Char) : Option (ℚ × List Char) :=
  let (neg, cs1) :=
    match cs with
    | '-' :: rest => (true, rest)
    | rest => (false, rest)
  let (ip, r1) := takeDigits cs1
  match ip with
  | [] => none
  | d0 :: drest =>
    if d0 = '0' ∧ drest ≠ [] then none
    else
      let (fp, r2) :=
        match r1 with
        | '.' :: rf =>
          let (ds, rr) := takeDigits rf
          (some ds, rr)
        | _ => (none, r1)
      match fp with
      | some [] => none
      | _ =>
        let fd := fp.getD []
        let ex : Option (List Char) :=
          match r2 with
          | 'e' :: re => some re
          | 'E' :: re => some re
          | _ => none
        match ex with
        | none => some (decValue neg (digitsVal (ip ++ fd)) (-(fd.length : Int)), r2)
        | some re =>
          let (esign, re1) :=
            match re with
            | '+' :: rr => ((1 : Int), rr)
            | '-' :: rr => ((-1 : Int), rr)
            | rr => ((1 : Int), rr)
          let (eds, r4) := takeDigits re1
          match eds with
          | [] => none
          | _ =>
            some (decValue neg (digitsVal (ip ++ fd))
                    (esign * (digitsVal eds : Int) - (fd.length : Int)), r4)

/-- Parser mode: a plain value, the members of an object being read (with
the members already read), or the items of an array being read. -/
inductive PMode where
  | val
  | members (acc : List (String × JVal))
  | items (acc : List JVal)

/-- Recursive descent over JSON text. Fuel decreases on every nested call;
at least one input character is consumed per unit of fuel, so any fuel above
the input length is enough. In `.members`/`.items` mode the head of the
input is the first non-whitespace character of the next member/item. -/
def parseCore : Nat → PMode → List Char → Option (JVal × List Char)
  | 0, _, _ => none
  | fuel + 1, .val, cs =>
    match cs with
    | [] => none
    | c :: rest =>
      if c = Char.ofNat 0x7b then
        match skipWs rest with
        | d :: r2 =>
          if d = Char.ofNat 0x7d then some (.obj [], r2)
          else parseCore fuel (.members []) (d :: r2)
        | [] => none
      else if c = '[' then
        match skipWs rest with
        | d :: r2 =>
          if d = ']' then some (.arr [], r2)
          else parseCore fuel (.items []) (d :: r2)
        | [] => none
      else if c = '"' then
        (parseJStrBody (rest.length + 1) rest).map (fun p => (.str (String.mk p.1), p.2))
      else if c = 't' then
        match rest with
        | 'r' :: 'u' :: 'e' :: r => some (.bool true, r)
        | _ => none
      else if c = 'f' then
        match rest with
        | 'a' :: 'l' :: 's' :: 'e' :: r => some (.bool false, r)
        | _ => none
      else if c = 'n' then
        match rest with
        | 'u' :: 'l' :: 'l' :: r => some (.null, r)
        | _ => none
      else
        (parseJNum (c :: rest)).map (fun p => (.num p.1, p.2))
  | fuel + 1, .members acc, cs =>
    match cs with
    | '"' :: rest =>
      match parseJStrBody (rest.length + 1) rest with
      | some (k, r1) =>
        match skipWs r1 with
        | ':' :: r2 =>
          match parseCore fuel .val (skipWs r2) with
          | some (v, r3) =>
            let acc2 := acc ++ [(String.mk k, v)]
            match skipWs r3 with
            | ',' :: r4 => parseCore fuel (.members acc2) (skipWs r4)
            | e :: r4 =>
              if e = Char.ofNat 0x7d then some (.obj acc2, r4) else none
            | [] => none
          | none => none
        | _ => none
      | none => none
    | _ => none
  | fuel + 1, .items acc, cs =>
    match parseCore fuel .val cs with
    | some (v, r1) =>
      let acc2 := acc ++ [v]
      match skipWs r1 with
      | ',' :: r2 => parseCore fuel (.items acc2) (skipWs r2)
      | ']' :: r2 => some (.arr acc2, r2)
      | _ => none
    | none => none

/-- Python `json.loads` on decoded text: one JSON value, with surrounding
whitespace allowed and the whole input consumed. -/
def json_loads (cs : List Char) : Option JVal :=
  match parseCore (2 * cs.length + 2) .val (skipWs cs) with
  | some (v, rest) => if skipWs rest = [] then some v else none
  | none => none

/-! ### Packet decoding (`parse_packet`) -/

/-- Python `msg[k]` on the parsed JSON value: `TypeError` unless the value
is an object, `KeyError` if the key is absent; with duplicate keys the last
one wins, as in the dict `json.loads` builds. -/
def getField (msg : JVal) (k : String) : Except DecodeError JVal :=
  match msg with
  | .obj kvs =>
    match kvs.foldl (fun acc kv => if kv.1 = k then some kv.2 else acc) none with
    | some v => .ok v
    | none => .error (.missingField k)
  | _ => .error .notObject

/-- Field extraction of `parse_packet`, in the evaluation order of the
Python dict literal: for each field the lookup happens before the coercion,
and the fields are evaluated in the order `ts`, `aTA`, `aGAS`, `valid`; the
first raise wins. -/
def parse_fields (msg : JVal) : Except DecodeError Sample :=
  match getField msg ("ts") with
  | .error e => .error e
  | .ok tsv =>
    match to_float tsv with
    | none => .error (.badType ("ts"))
    | some ts =>
      match getField msg ("aTA") with
      | .error e => .error e
      | .ok av =>
        match to_float av with
        | none => .error (.badType ("aTA"))
        | some a =>
          match getField msg ("aGAS") with
          | .error e => .error e
          | .ok gv =>
            match to_float gv with
            | none => .error (.badType ("aGAS"))
            | some g =>
              match getField msg ("valid") with
              | .error e => .error e
              | .ok vv =>
                match to_bool vv with
                | none => .error (.badType ("valid"))
                | some b =>
                  .ok { ts := ts, aTA := clamp01 a, aGAS := clamp01 g, valid := b }

/-- Python `parse_packet`: decode the bytes as UTF-8, parse the text as
JSON, and extract and coerce the four required fields. Any of the failures
the Python function can raise is a `DecodeError` here. -/
def parse_packet (raw : List Nat) : Except DecodeError Sample :=
  match utf8Decode raw with
  | none => .error .badEncoding
  | some chars =>
    match json_loads chars with
    | none => .error .badSyntax
    | some msg => parse_fields msg

/-! ### JSON serialization (model of `json.dump` on the sample dict)

`json.dump` renders the dict in insertion order (`ts`, `aTA`, `aGAS`,
`valid`) with the default separators, floats through Python's `repr`. All
floats the listener ever serializes are finite decimals (they come from
decoded decimal literals or from clamping to `0`/`1`), and for those `repr`
prints the exact decimal expansion, which `floatRepr` reproduces; for a
rational that is not a finite decimal the model falls back to a
numerator/denominator rendering that no listener value ever takes. -/

/-- Multiplicity of `p` in `n` (first argument is fuel; `fuel = n` is always
enough since a factor of `p ≥ 2` at least halves `n`). -/
def countFactor : Nat → Nat → Nat → Nat
  | 0, _, _ => 0
  | fuel + 1, p, n =>
    if 2 ≤ p ∧ n ≠ 0 ∧ n % p = 0 then countFactor fuel p (n / p) + 1 else 0

/-- Decimal digit character. -/
def digitChar (d : Nat) : Char := Char.ofNat (48 + d)

/-- Decimal digits of `n`, most significant first; empty for `0` (first
argument is fuel; `fuel = n` is always enough). -/
def natDigits : Nat → Nat → List Char
  | 0, _ => []
  | fuel + 1, n => if n = 0 then [] else natDigits fuel (n / 10) ++ [digitChar (n % 10)]

/-- Decimal rendering of a natural number. -/
def natStr (n : Nat) : String :=
  if n = 0 then "0" else String.mk (natDigits n n)

/-- Left-pad a digit list with zeros to length `k`. -/
def padZeros (k : Nat) (ds : List Char) : List Char :=
  List.replicate (k - ds.length) '0' ++ ds

/-- Drop trailing zeros but keep at least one digit. -/
def stripTrailingZeros (ds : List Char) : List Char :=
  match (ds.reverse.dropWhile (fun c => c = '0')) with
  | [] => ['0']
  | r => r.reverse

/-- Python `repr` of a float that is a finite decimal: integer part, a dot,
and the fractional digits with trailing zeros removed (at least one digit on
each side, e.g. `1.0`, `0.42`). -/
def floatRepr (q : ℚ) : String :=
  let sgn := if q.num < 0 then "-" else ""
  let n := q.num.natAbs
  let d := q.den
  let a := countFactor d 2 d
  let b := countFactor d 5 d
  if d / (2 ^ a * 5 ^ b) = 1 then
    let k := max a b
    let scaled := n * 10 ^ k / d
    let ip := scaled / 10 ^ k
    let fr := scaled % 10 ^ k
    sgn ++ natStr ip ++ "." ++
      (if k = 0 then "0" else String.mk (stripTrailingZeros (padZeros k (natDigits fr fr))))
  else sgn ++ natStr n ++ "/" ++ natStr d

/-- The serialized sample, as `json.dump` writes it for the dict built by
`parse_packet`: keys in insertion order, default separators. -/
def sampleToJsonString (s : Sample) : String :=
  "\x7b\"ts\": " ++ floatRepr s.ts ++
  ", \"aTA\": " ++ floatRepr s.aTA ++
  ", \"aGAS\": " ++ floatRepr s.aGAS ++
  ", \"valid\": " ++ (if s.valid then "true" else "false") ++ "\x7d"

/-- Full content of the published artifact after one `atomic_write_json`:
the serialized sample plus the trailing newline `f.write("\n")` adds. -/
def atomic_write_json_content (s : Sample) : String :=
  sampleToJsonString s ++ "\n"

/-! ### File-system trace model of `atomic_write_json` -/

/-- One file-system operation performed by `atomic_write_json`. -/
inductive FsOp where
  | writeFile (path : String) (content : String)
  | appendFile (path : String) (content : String)
  | replaceFile (src : String) (dst : String)

/-- The operations `atomic_write_json(path, data)` performs, in order:
create/truncate the temporary file and `json.dump` into it, write the
trailing newline, then `os.replace` the temporary file onto the target. -/
def atomic_write_json (path : String) (s : Sample) : List FsOp :=
  [ .writeFile (path ++ ".tmp") (sampleToJsonString s),
    .appendFile (path ++ ".tmp") "\n",
    .replaceFile (path ++ ".tmp") path ]

/-- File-system state: content of each path, if the path exists. -/
abbrev FS : Type := String → Option String

/-- Effect of one operation on the file system: `writeFile` truncates and
writes, `appendFile` appends (creating if absent), `replaceFile` moves the
source over the destination. -/
def applyOp (fs : FS) : FsOp → FS
  | .writeFile p c => fun q => if q = p then some c else fs q
  | .appendFile p c => fun q => if q = p then some ((fs p).getD "" ++ c) else fs q
  | .replaceFile src dst => fun q =>
      if q = src then none else if q = dst then fs src else fs q

/-- Effect of a sequence of operations. -/
def applyOps (fs : FS) (ops : List FsOp) : FS :=
  ops.foldl applyOp fs

/-- Whether an operation reads or writes the given path. -/
def touchesPath (p : String) : FsOp → Bool
  | .writeFile q _ => q = p
  | .appendFile q _ => q = p
  | .replaceFile src dst => src = p || dst = p

/-! ### The ingestion loop of `main` -/

/-- One line of the CSV log: the header `csv.DictWriter.writeheader` writes
(`recv_ts,ts,aTA,aGAS,valid`), or one data row for a decoded sample plus its
receive timestamp. -/
inductive LogLine where
  | header
  | row (recv_ts : ℚ) (s : Sample)
deriving DecidableEq, Repr

/-- Opening the CSV log in append mode: against empty storage
(`not os.path.exists(csv_path)`) the header is written once; otherwise the
existing content is kept and appended to. -/
def openLogFile (existing : Option (List LogLine)) : List LogLine :=
  match existing with
  | none => [LogLine.header]
  | some lines => lines

/-- The loop state of `main`: the accepted and rejected counters, the CSV
log content, the published snapshot artifact (its byte content, if it
exists), and the `last_sample` status variable. -/
structure LoopState where
  ok : Nat
  bad : Nat
  log : List LogLine
  published : Option String
  lastSample : Option Sample
deriving DecidableEq, Repr

/-- The state after `main`'s start-up against the given prior storage. -/
def initState (existing : Option (List LogLine)) (published0 : Option String) : LoopState :=
  { ok := 0, bad := 0, log := openLogFile existing,
    published := published0, lastSample := none }

/-- Outcome of the storage calls of one iteration, injected by the
environment: both succeed, the CSV append (`writerow`/`flush`) raises
`IOError`, or the publish (`atomic_write_json`) raises `IOError`. -/
inductive IOOutcome where
  | ok
  | appendFails
  | publishFails
deriving DecidableEq, Repr

/-- An uncaught `IOError` surfacing from the loop body. -/
inductive IOFailure where
  | appendError
  | publishError
deriving DecidableEq, Repr

/-- One receive event: a datagram with its receive timestamp and the
iteration's storage outcome, or a `socket.timeout`. -/
inductive Event where
  | packet (recv_ts : ℚ) (raw : List Nat) (io : IOOutcome)
  | timeout

/-- One iteration of the ingestion loop. A timeout is a no-op. For a packet,
`parse_packet` failure increments the rejected counter and nothing else; on
success the row is appended and flushed, the snapshot is published, and only
then are the accepted counter and `last_sample` updated. An `IOError` from
append or publish is returned as an error together with the state at the
point of the raise: a failing append leaves everything unchanged (the record
is not durable), a failing publish leaves the appended row but no snapshot;
in both cases the counter and `last_sample` updates are never reached. -/
def stepEvent (st : LoopState) : Event → Except (IOFailure × LoopState) LoopState
  | .timeout => .ok st
  | .packet rts raw io =>
    match parse_packet raw with
    | .error _ => .ok { st with bad := st.bad + 1 }
    | .ok s =>
      match io with
      | .appendFails => .error (.appendError, st)
      | .publishFails => .error (.publishError, { st with log := st.log ++ [.row rts s] })
      | .ok => .ok { st with
          log := st.log ++ [.row rts s],
          published := some (atomic_write_json_content s),
          ok := st.ok + 1,
          lastSample := some s }

/-- The ingestion loop over a list of events: decode failures and timeouts
are handled locally and the loop continues; an `IOError` propagates
immediately, abandoning the remaining events. -/
def runLoop (st : LoopState) : List Event → Except (IOFailure × LoopState) LoopState
  | [] => .ok st
  | e :: es =>
    match stepEvent st e with
    | .ok st2 => runLoop st2 es
    | .error err => .error err

/-- An accepted-iteration event (storage succeeds) from a timestamped
datagram. -/
def acceptedEvent (p : ℚ × List Nat) : Event :=
  .packet p.1 p.2 .ok

/-! ### Shape predicates on JSON values, for stating the coercion claims -/

/-- The value is a JSON number. -/
def isNumericJVal : JVal → Bool
  | .num _ => true
  | _ => false

/-- The value is a JSON boolean. -/
def isBoolJVal : JVal → Bool
  | .bool _ => true
  | _ => false

/-- The value is a string that parses as a number after trimming. -/
def isNumericStringJVal : JVal → Bool
  | .str s => (pyFloatOfString s.data).isSome
  | _ => false

/-! ## Theorems -/

/-- The clamp is total: its result is always within `[0, 1]`. -/
theorem clamp01_bounds (x : ℚ) : 0 ≤ clamp01 x ∧ clamp01 x ≤ 1 := by
  unfold clamp01
  exact ⟨le_max_left 0 _, max_le (by norm_num) (min_le_left 1 x)⟩

/-- Every sample produced by `parse_fields` carries clamped activations. -/
theorem parse_fields_clamped (msg : JVal) (s : Sample) (h : parse_fields msg = .ok s) :
    (∃ a, s.aTA = clamp01 a) ∧ (∃ g, s.aGAS = clamp01 g) := by
  unfold parse_fields at h
  cases h1 : getField msg ("ts") <;> simp only [h1] at h
  case error => cases h
  case ok tsv =>
  cases h2 : to_float tsv <;> simp only [h2] at h
  case none => cases h
  case some ts =>
  cases h3 : getField msg ("aTA") <;> simp only [h3] at h
  case error => cases h
  case ok av =>
  cases h4 : to_float av <;> simp only [h4] at h
  case none => cases h
  case some a =>
  cases h5 : getField msg ("aGAS") <;> simp only [h5] at h
  case error => cases h
  case ok gv =>
  cases h6 : to_float gv <;> simp only [h6] at h
  case none => cases h
  case some g =>
  cases h7 : getField msg ("valid") <;> simp only [h7] at h
  case error => cases h
  case ok vv =>
  cases h8 : to_bool vv <;> simp only [h8] at h
  case none => cases h
  case some b =>
  cases h
  exact ⟨⟨a, rfl⟩, ⟨g, rfl⟩⟩

/-- Every sample produced by `parse_packet` carries clamped activations. -/
theorem parse_packet_clamped (raw : List Nat) (s : Sample) (h : parse_packet raw = .ok s) :
    (∃ a, s.aTA = clamp01 a) ∧ (∃ g, s.aGAS = clamp01 g) := by
  unfold parse_packet at h
  cases h1 : utf8Decode raw <;> simp only [h1] at h
  case none => cases h
  case some chars =>
  cases h2 : json_loads chars <;> simp only [h2] at h
  case none => cases h
  case some msg =>
  exact parse_fields_clamped msg s h

/-- C4: for every input that decodes successfully, the `aTA` and `aGAS`
fields of the decoded sample lie in `[0, 1]`; and at the boundary, an input
packet with `aTA = -0.1` decodes to `aTA = 0` and one with `aGAS = 1.7`
decodes to `aGAS = 1`. -/
theorem clamping_is_total :
    (∀ (raw : List Nat) (s : Sample), parse_packet raw = .ok s →
      (0 ≤ s.aTA ∧ s.aTA ≤ 1) ∧ (0 ≤ s.aGAS ∧ s.aGAS ≤ 1))
    ∧ parse_packet
        (strBytes ("\x7b\"ts\": 0, \"aTA\": -0.1, \"aGAS\": 1.7, \"valid\": true\x7d"))
        = .ok { ts := 0, aTA := 0, aGAS := 1, valid := true } := by
  constructor
  · intro raw s h
    obtain ⟨⟨a, ha⟩, ⟨g, hg⟩⟩ := parse_packet_clamped raw s h
    rw [ha, hg]
    exact ⟨clamp01_bounds a, clamp01_bounds g⟩
  · decide

/-- Witness for C4: the universal part applied to a concrete accepted
packet, whose decoding is evaluated in full. -/
theorem clamping_is_total_witness :
    (0 ≤ (Sample.mk 0 0 1 true).aTA ∧ (Sample.mk 0 0 1 true).aTA ≤ 1)
    ∧ (0 ≤ (Sample.mk 0 0 1 true).aGAS ∧ (Sample.mk 0 0 1 true).aGAS ≤ 1) :=
  clamping_is_total.1
    (strBytes ("\x7b\"ts\": 0, \"aTA\": -0.1, \"aGAS\": 1.7, \"valid\": true\x7d"))
    (Sample.mk 0 0 1 true) (by decide)

/-- C5: the validity coercion takes booleans unchanged and numbers by a
nonzero check, and maps a string to `true` exactly when its stripped,
lowercased form is in `{"1", "true", "yes", "y"}` and to `false` otherwise;
in particular `"YES"` coerces to `true` and `"false"` coerces to `false`. -/
theorem to_bool_spec :
    ((∀ b, to_bool (.bool b) = some b)
      ∧ (∀ q : ℚ, (to_bool (.num q) = some true ↔ q ≠ 0)
          ∧ (to_bool (.num q) = some false ↔ q = 0))
      ∧ (∀ s : String, (to_bool (.str s) = some true ↔ pyNorm s ∈ truthyStrings)
          ∧ (to_bool (.str s) = some false ↔ pyNorm s ∉ truthyStrings)))
    ∧ to_bool (.str ("YES")) = some true
    ∧ to_bool (.str ("false")) = some false := by
  refine ⟨⟨fun b => rfl, fun q => ?_, fun s => ?_⟩, by decide, by decide⟩
  · constructor
    · simp [to_bool]
    · simp [to_bool]
  · constructor
    · simp [to_bool, List.contains, List.elem_iff]
    · simp [to_bool, List.contains, List.elem_iff]

/-- C6 counterexample: a JSON boolean is neither a numeric value nor a
numeric string, yet the numeric coercion succeeds on it (Python's
`isinstance(v, (int, float))` accepts booleans, since `bool` subclasses
`int`), so the coercion does not fail on every non-numeric, non-string
input. -/
theorem to_float_accepts_bool :
    to_float (.bool true) = some (mkRat 1 1)
    ∧ isNumericJVal (.bool true) = false
    ∧ isNumericStringJVal (.bool true) = false := by
  exact ⟨rfl, rfl, rfl⟩

/-- C6 (amended): the numeric coercion succeeds exactly on numeric values,
boolean values (mapped to `1`/`0` through their integer value), and strings
that parse as a number after trimming surrounding whitespace; every other
input fails the coercion, and a failed coercion fails the decode. -/
theorem to_float_spec :
    (∀ v, (to_float v).isSome
      = (isNumericJVal v || isBoolJVal v || isNumericStringJVal v))
    ∧ (∀ q : ℚ, to_float (.num q) = some q)
    ∧ (∀ b, to_float (.bool b) = some (if b then mkRat 1 1 else mkRat 0 1))
    ∧ (∀ s : String, to_float (.str s) = pyFloatOfString s.data)
    ∧ (∀ msg v, getField msg ("ts") = .ok v → to_float v = none →
        parse_fields msg = .error (.badType ("ts"))) := by
  refine ⟨fun v => ?_, fun q => rfl, fun b => rfl, fun s => rfl, fun msg v h1 h2 => ?_⟩
  · cases v <;> simp [to_float, isNumericJVal, isBoolJVal, isNumericStringJVal]
  · unfold parse_fields
    rw [h1]
    simp only [h2]

/-- Witness for the amended C6: a concrete object whose `ts` field is a
JSON `null` is rejected by the decoder with a type error on `ts`. -/
theorem to_float_spec_witness :
    parse_fields (.obj [("ts", .null)]) = .error (.badType ("ts")) :=
  to_float_spec.2.2.2.2 (.obj [("ts", .null)]) .null rfl rfl

/-- C8: encoding the sample `ts = 1.5`, `aTA = 0.42`, `aGAS = 0.77`,
`valid = true` with the publisher's serialization and decoding the bytes
with the packet codec returns the same sample, field for field. -/
theorem publish_decode_roundtrip :
    parse_packet (utf8Encode (atomic_write_json_content
        { ts := mkRat 3 2, aTA := mkRat 21 50, aGAS := mkRat 77 100, valid := true }).data)
      = .ok { ts := mkRat 3 2, aTA := mkRat 21 50, aGAS := mkRat 77 100, valid := true } := by
  decide

/-- C1: whenever decoding fails (with any of the classified decode errors),
the iteration increments the rejected counter by exactly one, leaves the
log, the published snapshot, the accepted counter and `last_sample`
unchanged, discards the packet, and the loop goes on with the remaining
events instead of terminating. -/
theorem malformed_packet_rejected (st : LoopState) (rts : ℚ) (raw : List Nat)
    (io : IOOutcome) (err : DecodeError) (rest : List Event)
    (h : parse_packet raw = .error err) :
    stepEvent st (.packet rts raw io) = .ok { st with bad := st.bad + 1 }
    ∧ runLoop st (.packet rts raw io :: rest) = runLoop { st with bad := st.bad + 1 } rest
    ∧ ({ st with bad := st.bad + 1 } : LoopState).log = st.log
    ∧ ({ st with bad := st.bad + 1 } : LoopState).published = st.published
    ∧ ({ st with bad := st.bad + 1 } : LoopState).ok = st.ok
    ∧ ({ st with bad := st.bad + 1 } : LoopState).lastSample = st.lastSample := by
  refine ⟨?_, ?_, rfl, rfl, rfl, rfl⟩
  · simp [stepEvent, h]
  · simp [runLoop, stepEvent, h]

/-- Witness for C1: a concrete malformed packet (a lone invalid UTF-8 byte)
is rejected and only bumps the rejected counter. -/
theorem malformed_packet_rejected_witness :
    stepEvent (initState none none) (.packet 0 [0xFF] .ok)
      = .ok { initState none none with bad := 1 }
    ∧ runLoop (initState none none) (.packet 0 [0xFF] .ok :: [])
      = runLoop { initState none none with bad := 1 } []
    ∧ ({ initState none none with bad := 1 } : LoopState).log = (initState none none).log
    ∧ ({ initState none none with bad := 1 } : LoopState).published
        = (initState none none).published
    ∧ ({ initState none none with bad := 1 } : LoopState).ok = (initState none none).ok
    ∧ ({ initState none none with bad := 1 } : LoopState).lastSample
        = (initState none none).lastSample :=
  malformed_packet_rejected (initState none none) 0 [0xFF] .ok .badEncoding [] (by decide)

/-- Folding a constant-`some` update over a list lands on the last element,
or keeps the initial value when the list is empty. -/
theorem foldl_some_last {α β : Type} (f : α → β) :
    ∀ (l : List α) (init : Option β),
      l.foldl (fun _ s => some (f s)) init
        = ((l.getLast?).map (fun a => some (f a))).getD init := by
  intro l
  induction l with
  | nil => intro init; rfl
  | cons a l ih =>
    intro init
    cases l with
    | nil => simp [List.foldl]
    | cons b l2 =>
      rw [List.foldl, List.getLast?_cons_cons, ih]
      cases hg : (b :: l2).getLast? with
      | none => exact absurd hg (Option.isSome_iff_ne_none.mp rfl)
      | some x => simp

/-- Running the loop over accepted iterations only: every row is appended in
arrival order, the accepted counter advances by the number of packets, the
rejected counter is untouched, and the snapshot and `last_sample` end at the
last accepted sample. -/
theorem runLoop_accepted (inputs : List (ℚ × List Nat)) (samples : List Sample)
    (h : List.Forall₂ (fun p s => parse_packet p.2 = .ok s) inputs samples) :
    ∀ st : LoopState,
      runLoop st (inputs.map acceptedEvent) = .ok {
        ok := st.ok + samples.length,
        bad := st.bad,
        log := st.log ++ (inputs.zip samples).map (fun q => .row q.1.1 q.2),
        published := samples.foldl
          (fun _ s => some (atomic_write_json_content s)) st.published,
        lastSample := samples.foldl (fun _ s => some s) st.lastSample } := by
  induction h with
  | nil =>
    intro st
    simp [runLoop]
  | @cons p s inputs2 samples2 hp hrest ih =>
    intro st
    rw [List.map_cons, runLoop]
    simp only [acceptedEvent, stepEvent, hp]
    rw [ih]
    simp [List.zip_cons_cons, Nat.add_assoc, Nat.add_comm 1 samples2.length]

/-- C2: from empty storage, a sequence of accepted packets leaves the
durable log holding the header exactly once followed by exactly one row per
packet in arrival order (each row the decoded sample with its receive
timestamp), and the published snapshot is the serialization of the last
accepted sample. -/
theorem durable_log_ordering (inputs : List (ℚ × List Nat)) (samples : List Sample)
    (h : List.Forall₂ (fun p s => parse_packet p.2 = .ok s) inputs samples) :
    ∃ final : LoopState,
      runLoop (initState none none) (inputs.map acceptedEvent) = .ok final
      ∧ final.log = LogLine.header
          :: (inputs.zip samples).map (fun q => LogLine.row q.1.1 q.2)
      ∧ final.log.count LogLine.header = 1
      ∧ final.log.length = 1 + samples.length
      ∧ final.published = (samples.getLast?).map atomic_write_json_content
      ∧ final.lastSample = samples.getLast?
      ∧ final.ok = samples.length
      ∧ final.bad = 0
      ∧ samples.length = inputs.length := by
  refine ⟨_, runLoop_accepted inputs samples h (initState none none), ?_, ?_, ?_, ?_, ?_, ?_, ?_, ?_⟩
  · simp [initState, openLogFile]
  · simp only [initState, openLogFile, List.singleton_append]
    rw [List.count_cons_self]
    have hz : ((inputs.zip samples).map (fun q => LogLine.row q.1.1 q.2)).count LogLine.header = 0 := by
      rw [List.count_eq_zero]
      intro hmem
      simp only [List.mem_map] at hmem
      obtain ⟨x, _, hx⟩ := hmem
      cases hx
    simp [hz]
  · have hlen := h.length_eq
    simp [initState, openLogFile, List.length_zip, hlen, Nat.add_comm]
  · simp only [initState]
    rw [foldl_some_last]
    cases samples.getLast? <;> simp
  · simp only [initState]
    rw [foldl_some_last (fun s => s)]
    cases samples.getLast? <;> simp
  · simp [initState]
  · simp [initState]
  · exact h.length_eq.symm

/-- Witness for C2: two concrete accepted packets produce a header plus two
rows in arrival order and publish the second sample. -/
theorem durable_log_ordering_witness :
    ∃ final : LoopState,
      runLoop (initState none none)
        (([((1 : ℚ), strBytes ("\x7b\"ts\": 1, \"aTA\": 2, \"aGAS\": -1, \"valid\": 0\x7d")),
           ((2 : ℚ), strBytes ("\x7b\"ts\": 2.5, \"aTA\": 0.5, \"aGAS\": 1, \"valid\": \"y\"\x7d"))]).map
          acceptedEvent) = .ok final
      ∧ final.log = LogLine.header
          :: ([((1 : ℚ), strBytes ("\x7b\"ts\": 1, \"aTA\": 2, \"aGAS\": -1, \"valid\": 0\x7d")),
               ((2 : ℚ), strBytes ("\x7b\"ts\": 2.5, \"aTA\": 0.5, \"aGAS\": 1, \"valid\": \"y\"\x7d"))].zip
              [Sample.mk (mkRat 1 1) 1 0 false, Sample.mk (mkRat 5 2) (mkRat 1 2) 1 true]).map
            (fun q => LogLine.row q.1.1 q.2)
      ∧ final.log.count LogLine.header = 1
      ∧ final.log.length = 1 + ([Sample.mk (mkRat 1 1) 1 0 false,
            Sample.mk (mkRat 5 2) (mkRat 1 2) 1 true] : List Sample).length
      ∧ final.published = (([Sample.mk (mkRat 1 1) 1 0 false,
            Sample.mk (mkRat 5 2) (mkRat 1 2) 1 true] : List Sample).getLast?).map
            atomic_write_json_content
      ∧ final.lastSample = ([Sample.mk (mkRat 1 1) 1 0 false,
            Sample.mk (mkRat 5 2) (mkRat 1 2) 1 true] : List Sample).getLast?
      ∧ final.ok = ([Sample.mk (mkRat 1 1) 1 0 false,
            Sample.mk (mkRat 5 2) (mkRat 1 2) 1 true] : List Sample).length
      ∧ final.bad = 0
      ∧ ([Sample.mk (mkRat 1 1) 1 0 false,
            Sample.mk (mkRat 5 2) (mkRat 1 2) 1 true] : List Sample).length
          = ([((1 : ℚ), strBytes ("\x7b\"ts\": 1, \"aTA\": 2, \"aGAS\": -1, \"valid\": 0\x7d")),
              ((2 : ℚ), strBytes ("\x7b\"ts\": 2.5, \"aTA\": 0.5, \"aGAS\": 1, \"valid\": \"y\"\x7d"))]).length :=
  durable_log_ordering _ _
    (List.Forall₂.cons (by decide) (List.Forall₂.cons (by decide) List.Forall₂.nil))

/-- C7: an `IOError` from the durable append or from the publish is not
handled inside the loop: it propagates out immediately, abandoning the
remaining events, whatever they are; the loop's local handling covers only
decode failures and receive timeouts, which both let the loop continue. -/
theorem io_error_propagates (st : LoopState) (rts : ℚ) (raw : List Nat) (s : Sample)
    (rest : List Event) (h : parse_packet raw = .ok s) :
    runLoop st (.packet rts raw .appendFails :: rest) = .error (.appendError, st)
    ∧ runLoop st (.packet rts raw .publishFails :: rest)
        = .error (.publishError, { st with log := st.log ++ [.row rts s] })
    ∧ (∀ (raw2 : List Nat) (err2 : DecodeError) (io2 : IOOutcome),
        parse_packet raw2 = .error err2 →
        runLoop st (.packet rts raw2 io2 :: rest) = runLoop { st with bad := st.bad + 1 } rest)
    ∧ runLoop st (.timeout :: rest) = runLoop st rest := by
  refine ⟨?_, ?_, fun raw2 err2 io2 h2 => ?_, ?_⟩
  · simp [runLoop, stepEvent, h]
  · simp [runLoop, stepEvent, h]
  · simp [runLoop, stepEvent, h2]
  · simp [runLoop, stepEvent]

/-- Witness for C7: a concrete valid packet whose append fails aborts the
loop with an append error even though more events are pending. -/
theorem io_error_propagates_witness :
    runLoop (initState none none)
        (.packet 0 (strBytes ("\x7b\"ts\": 1, \"aTA\": 0, \"aGAS\": 0, \"valid\": true\x7d"))
          .appendFails :: [.timeout])
      = .error (.appendError, initState none none)
    ∧ runLoop (initState none none)
        (.packet 0 (strBytes ("\x7b\"ts\": 1, \"aTA\": 0, \"aGAS\": 0, \"valid\": true\x7d"))
          .publishFails :: [.timeout])
      = .error (.publishError, { initState none none with
          log := (initState none none).log ++ [.row 0 (Sample.mk (mkRat 1 1) 0 0 true)] })
    ∧ runLoop (initState none none) (.packet 0 [0xFF] .ok :: [.timeout])
        = runLoop { initState none none with bad := 1 } [.timeout]
    ∧ runLoop (initState none none) (.timeout :: [.timeout])
        = runLoop (initState none none) [.timeout] :=
  have hmain := io_error_propagates (initState none none) 0
    (strBytes ("\x7b\"ts\": 1, \"aTA\": 0, \"aGAS\": 0, \"valid\": true\x7d"))
    (Sample.mk (mkRat 1 1) 0 0 true) [.timeout] (by decide)
  ⟨hmain.1, hmain.2.1, hmain.2.2.1 [0xFF] .badEncoding .ok (by decide), hmain.2.2.2⟩

/-- C10: the accepted counter is bumped only when both storage operations of
the iteration succeed: if the iteration raises an `IOError`, the accepted
counter and `last_sample` are unchanged in the surfaced state; a completed
iteration bumps the counter exactly when the packet decoded and the storage
outcome was success, and in that case the row, the snapshot, the counter and
`last_sample` are all updated together. -/
theorem accepted_counter_after_persist (st : LoopState) (rts : ℚ) (raw : List Nat)
    (io : IOOutcome) :
    (∀ e st2, stepEvent st (.packet rts raw io) = .error (e, st2) →
      st2.ok = st.ok ∧ st2.lastSample = st.lastSample)
    ∧ (∀ st2, stepEvent st (.packet rts raw io) = .ok st2 →
      (st2.ok = st.ok + 1 ↔ io = .ok ∧ ∃ s, parse_packet raw = .ok s))
    ∧ (∀ s, parse_packet raw = .ok s → io = .ok →
      stepEvent st (.packet rts raw io) = .ok { st with
        log := st.log ++ [.row rts s],
        published := some (atomic_write_json_content s),
        ok := st.ok + 1,
        lastSample := some s }) := by
  refine ⟨fun e st2 he => ?_, fun st2 hok => ?_, fun s hs hio => ?_⟩
  · cases hp : parse_packet raw <;> simp only [stepEvent, hp] at he
    · cases he
    · cases io <;> simp only [] at he
      case ok => cases he
      case appendFails => cases he; exact ⟨rfl, rfl⟩
      case publishFails => cases he; exact ⟨rfl, rfl⟩
  · cases hp : parse_packet raw <;> simp only [stepEvent, hp] at hok
    · cases hok
      simp [hp]
    · cases io <;> simp only [] at hok
      · cases hok
        simp [hp]
      · cases hok
      · cases hok
  · rw [hio]
    simp only [stepEvent, hs]

/-- Witness for C10: with a concrete valid packet and a failing publish, the
surfaced state keeps the accepted counter and `last_sample`. -/
theorem accepted_counter_after_persist_witness :
    ((initState none none).ok = (initState none none).ok
      ∧ (initState none none).lastSample = (initState none none).lastSample)
    ∧ stepEvent (initState none none)
          (.packet 0 (strBytes ("\x7b\"ts\": 1, \"aTA\": 0, \"aGAS\": 0, \"valid\": true\x7d")) .ok)
        = .ok { initState none none with
            log := (initState none none).log ++ [.row 0 (Sample.mk (mkRat 1 1) 0 0 true)],
            published := some (atomic_write_json_content (Sample.mk (mkRat 1 1) 0 0 true)),
            ok := (initState none none).ok + 1,
            lastSample := some (Sample.mk (mkRat 1 1) 0 0 true) } :=
  ⟨(accepted_counter_after_persist (initState none none) 0
      (strBytes ("\x7b\"ts\": 1, \"aTA\": 0, \"aGAS\": 0, \"valid\": true\x7d"))
      .appendFails).1 .appendError (initState none none) (by decide),
   (accepted_counter_after_persist (initState none none) 0
      (strBytes ("\x7b\"ts\": 1, \"aTA\": 0, \"aGAS\": 0, \"valid\": true\x7d"))
      .ok).2.2 (Sample.mk (mkRat 1 1) 0 0 true) (by decide) rfl⟩

/-- The temporary path of `atomic_write_json` never collides with the
target path. -/
theorem tmp_path_ne (p : String) : p ++ ".tmp" ≠ p := by
  intro h
  have hl := congrArg String.length h
  rw [String.length_append] at hl
  have h4 : (".tmp" : String).length = 4 := rfl
  omega

/-- The target path of `atomic_write_json` never collides with the
temporary path. -/
theorem path_ne_tmp (p : String) : p ≠ p ++ ".tmp" :=
  fun h => tmp_path_ne p h.symm

/-- C3: a publish first writes the complete serialized sample to the
temporary path (done after the first two operations), the only operation
that touches the published path is the single rename, and after every
prefix of the operation sequence the published path holds either its
previous content or the new complete serialization — never a partial
write. -/
theorem publish_atomic (fs : FS) (path : String) (s : Sample) :
    ((atomic_write_json path s).filter (touchesPath path)
      = [.replaceFile (path ++ ".tmp") path])
    ∧ applyOps fs ((atomic_write_json path s).take 2) (path ++ ".tmp")
        = some (atomic_write_json_content s)
    ∧ (∀ n : Nat, applyOps fs ((atomic_write_json path s).take n) path = fs path
        ∨ applyOps fs ((atomic_write_json path s).take n) path
            = some (atomic_write_json_content s)) := by
  refine ⟨?_, ?_, fun n => ?_⟩
  · simp [atomic_write_json, touchesPath, List.filter, tmp_path_ne path]
  · simp [atomic_write_json, applyOps, applyOp, atomic_write_json_content]
  · match n with
    | 0 => left; rfl
    | 1 =>
      left
      simp [atomic_write_json, applyOps, applyOp, path_ne_tmp path]
    | 2 =>
      left
      simp [atomic_write_json, applyOps, applyOp, path_ne_tmp path]
    | (m + 3) =>
      right
      simp [atomic_write_json, applyOps, applyOp, path_ne_tmp path,
        atomic_write_json_content]

/-- C9: publishing the same sample twice in a row leaves the published
artifact byte-identical to a single publish, and that artifact is the full
serialization of the sample. -/
theorem publish_idempotent (fs : FS) (path : String) (s : Sample) :
    applyOps (applyOps fs (atomic_write_json path s)) (atomic_write_json path s) path
      = applyOps fs (atomic_write_json path s) path
    ∧ applyOps fs (atomic_write_json path s) path = some (atomic_write_json_content s) := by
  have hone : ∀ g : FS, applyOps g (atomic_write_json path s) path
      = some (atomic_write_json_content s) := by
    intro g
    simp [atomic_write_json, applyOps, applyOp, path_ne_tmp path,
      atomic_write_json_content]
  exact ⟨by rw [hone, hone], hone fs⟩

end EmgReceiver
